import Mathlib

/-!
Shallow embedding of the ARTAS1 camera-navigation and interaction core.

Scalars are modelled as rationals.  The JavaScript transcendental functions
(Math.sqrt, Math.sin, Math.cos, Math.acos, Math.atan2, Math.PI) are abstracted
as an explicit record of rational-valued functions (JsMath): the source uses
them only to derive camera-pose values that no verified property inspects, so
every theorem below is proved for an arbitrary interpretation of that record.
Rational division is total with x / 0 = 0; no verified property depends on a
division-by-zero value.
-/

namespace Artas

/-- Abstraction of the JavaScript Math functions used by the source. -/
structure JsMath where
  sqrt : ℚ → ℚ
  sin : ℚ → ℚ
  cos : ℚ → ℚ
  acos : ℚ → ℚ
  atan2 : ℚ → ℚ → ℚ
  pi : ℚ

/-- One concrete interpretation of JsMath, used to instantiate witnesses. -/
def jsMathTriv : JsMath :=
  ⟨fun q => q, fun _ => 0, fun _ => 1, fun _ => 0, fun _ _ => 0, 314/100⟩

/-- Models THREE.Vector3 restricted to its x, y, z data. -/
structure Vec3 where
  x : ℚ
  y : ℚ
  z : ℚ
deriving DecidableEq

/-- Models THREE.Vector3.sub (componentwise). -/
def Vec3.sub (a b : Vec3) : Vec3 := ⟨a.x - b.x, a.y - b.y, a.z - b.z⟩

/-- Models THREE.Vector3.add (componentwise). -/
def Vec3.add (a b : Vec3) : Vec3 := ⟨a.x + b.x, a.y + b.y, a.z + b.z⟩

/-- Models THREE.Vector3.lerpVectors: this = v1 + (v2 - v1) * alpha. -/
def lerpVectors (a b : Vec3) (t : ℚ) : Vec3 :=
  ⟨a.x + (b.x - a.x) * t, a.y + (b.y - a.y) * t, a.z + (b.z - a.z) * t⟩

/-- Models THREE.Spherical: radius, phi (polar), theta (azimuthal). -/
structure Spherical where
  radius : ℚ
  phi : ℚ
  theta : ℚ
deriving DecidableEq

/-- Models THREE.Spherical.setFromVector3 (via setFromCartesianCoords). -/
def sphericalFromVector3 (m : JsMath) (v : Vec3) : Spherical :=
  let radius := m.sqrt (v.x * v.x + v.y * v.y + v.z * v.z)
  if radius = 0 then ⟨0, 0, 0⟩
  else ⟨radius, m.acos (max (-1) (min 1 (v.y / radius))), m.atan2 v.x v.z⟩

/-- Models THREE.Vector3.setFromSpherical (via setFromSphericalCoords). -/
def vec3FromSpherical (m : JsMath) (s : Spherical) : Vec3 :=
  let sinPhiRadius := m.sin s.phi * s.radius
  ⟨sinPhiRadius * m.sin s.theta, m.cos s.phi * s.radius, sinPhiRadius * m.cos s.theta⟩

/-- Models the options object of CameraController (constructor defaults merged
with caller overrides). -/
structure Options where
  enableDamping : Bool
  dampingFactor : ℚ
  rotateSpeed : ℚ
  zoomSpeed : ℚ
  minDistance : ℚ
  maxDistance : ℚ
  minPolarAngle : ℚ
  maxPolarAngle : ℚ
  transitionDuration : ℚ
  reducedMotion : Bool
deriving DecidableEq

/-- Models one entry of CameraController.nodePositions. -/
structure NodeDesc where
  position : Vec3
  target : Vec3
  name : String
deriving DecidableEq

/-- Models CameraController.pointerState. -/
structure PointerState where
  isDown : Bool
  startX : ℚ
  startY : ℚ
  currentX : ℚ
  currentY : ℚ
deriving DecidableEq

/-- Models CameraController.touchState. -/
structure TouchState where
  initialDistance : ℚ
  currentDistance : ℚ
deriving DecidableEq

/-- Models a scene-graph object as seen by InteractionManager: an identity,
the userData.isNode flag, the userData.index field, and the parent chain. -/
inductive Obj where
  | top (id : ℕ) (isNode : Bool) (idx : ℕ)
  | sub (id : ℕ) (isNode : Bool) (idx : ℕ) (parent : Obj)
deriving DecidableEq

/-- The userData.index field of an object. -/
def Obj.nodeIdx : Obj → ℕ
  | .top _ _ x => x
  | .sub _ _ x _ => x

/-- Models InteractionManager.findNodeGroup: walk the parent chain until an
object with userData.isNode is found, else null. -/
def findNodeGroup : Obj → Option Obj
  | .top i n x => if n then some (.top i n x) else none
  | .sub i n x p => if n then some (.sub i n x p) else findNodeGroup p

/-- Observable events emitted by the core: navigation-listener calls,
camera-position and look-at-target mutations, and the InteractionManager
hover/unhover/click/select channels. -/
inductive Ev where
  | navCb (listener : ℕ) (idx : ℕ) (name : String)
  | posUpdate (p : Vec3)
  | targetUpdate (t : Vec3)
  | hover (entity : Option Obj)
  | unhover (entity : Obj)
  | click (entity : Obj)
  | selectEv (entity : Obj)
deriving DecidableEq

/-- An event is a camera-position or look-at-target mutation. -/
def Ev.isMotion : Ev → Bool
  | .posUpdate _ => true
  | .targetUpdate _ => true
  | _ => false

/-- Models the CameraController state: options, spherical orbit state, pending
deltas, look-at target, flags, current node index, the node table, input
state, the registered navigation listeners (by registration order), and the
camera position. -/
structure Ctrl where
  options : Options
  spherical : Spherical
  sphericalDelta : Spherical
  target : Vec3
  enabled : Bool
  isTransitioning : Bool
  currentNodeIndex : ℕ
  nodePositions : List NodeDesc
  pointerState : PointerState
  touchState : TouchState
  navListeners : List ℕ
  cameraPos : Vec3
deriving DecidableEq

/-- Models the nodePositions array built in the CameraController constructor. -/
def defaultNodePositions : List NodeDesc :=
  [⟨⟨0, 0, 50⟩, ⟨0, 0, 0⟩, "Hub"⟩,
   ⟨⟨30, 5, 25⟩, ⟨25, 0, 10⟩, "About"⟩,
   ⟨⟨-30, 10, 20⟩, ⟨-25, 5, 5⟩, "Work"⟩,
   ⟨⟨15, -10, 35⟩, ⟨10, -5, 20⟩, "Services"⟩,
   ⟨⟨-20, 0, 30⟩, ⟨-15, 0, 15⟩, "Contact"⟩]

/-- Models the constructor default options of CameraController. -/
def defaultOptions (m : JsMath) : Options :=
  ⟨true, 5/100, 1/2, 1, 20, 100, m.pi * (1/10), m.pi * (9/10), 2, false⟩

/-- Models CameraController.onWheel: multiplicative zoom then clamp to
minDistance and maxDistance. -/
def onWheel (st : Ctrl) (deltaY : ℚ) : Ctrl :=
  if !st.enabled || st.isTransitioning then st
  else
    let zoomDelta := deltaY * (1/1000) * st.options.zoomSpeed
    let r1 := st.spherical.radius * (1 + zoomDelta)
    let r2 := max st.options.minDistance (min st.options.maxDistance r1)
    { st with spherical := { st.spherical with radius := r2 } }

/-- Euclidean distance between two touch points, through the abstracted
Math.sqrt. -/
def touchDistance (m : JsMath) (t0 t1 : ℚ × ℚ) : ℚ :=
  let dx := t0.1 - t1.1
  let dy := t0.2 - t1.2
  m.sqrt (dx * dx + dy * dy)

/-- Models CameraController.onTouchStart: records the initial pinch distance
when exactly two touches are present. -/
def onTouchStart (m : JsMath) (st : Ctrl) (touches : List (ℚ × ℚ)) : Ctrl :=
  match touches with
  | [t0, t1] =>
      { st with touchState :=
          { st.touchState with initialDistance := touchDistance m t0 t1 } }
  | _ => st

/-- Models CameraController.onTouchMove: pinch ratio zoom then clamp, and the
initial distance is re-seeded to the current one. -/
def onTouchMove (m : JsMath) (st : Ctrl) (touches : List (ℚ × ℚ)) : Ctrl :=
  if !st.enabled || st.isTransitioning then st
  else
    match touches with
    | [t0, t1] =>
        let current := touchDistance m t0 t1
        let ratio := st.touchState.initialDistance / current
        let r1 := st.spherical.radius * ratio
        let r2 := max st.options.minDistance (min st.options.maxDistance r1)
        { st with
            spherical := { st.spherical with radius := r2 },
            touchState := ⟨current, current⟩ }
    | _ => st

/-- Models CameraController.onPointerDown (left button only). -/
def onPointerDown (st : Ctrl) (button : ℕ) (clientX clientY : ℚ) : Ctrl :=
  if !st.enabled || st.isTransitioning then st
  else if button ≠ 0 then st
  else { st with pointerState := ⟨true, clientX, clientY, clientX, clientY⟩ }

/-- Models CameraController.onPointerMove: accumulates rotate deltas into
sphericalDelta while the pointer is down. -/
def onPointerMove (st : Ctrl) (clientX clientY : ℚ) : Ctrl :=
  if !st.enabled || !st.pointerState.isDown then st
  else
    let dx := clientX - st.pointerState.currentX
    let dy := clientY - st.pointerState.currentY
    { st with
        pointerState := { st.pointerState with currentX := clientX, currentY := clientY },
        sphericalDelta := { st.sphericalDelta with
          theta := st.sphericalDelta.theta - dx * st.options.rotateSpeed * (1/100),
          phi := st.sphericalDelta.phi - dy * st.options.rotateSpeed * (1/100) } }

/-- Models CameraController.onPointerUp. -/
def onPointerUp (st : Ctrl) : Ctrl :=
  { st with pointerState := { st.pointerState with isDown := false } }

/-- Models CameraController.update: damped (or undamped) integration of the
pending deltas, polar-angle clamp, then camera reposition from the spherical
coordinates.  The source ignores its delta argument. -/
def update (m : JsMath) (st : Ctrl) (_delta : ℚ) : Ctrl :=
  if !st.enabled || st.isTransitioning then st
  else
    let df := st.options.dampingFactor
    let s1 :=
      if st.options.enableDamping then
        { st with
            spherical := { st.spherical with
              theta := st.spherical.theta + st.sphericalDelta.theta * df,
              phi := st.spherical.phi + st.sphericalDelta.phi * df },
            sphericalDelta := { st.sphericalDelta with
              theta := st.sphericalDelta.theta * (1 - df),
              phi := st.sphericalDelta.phi * (1 - df) } }
      else
        { st with
            spherical := { st.spherical with
              theta := st.spherical.theta + st.sphericalDelta.theta,
              phi := st.spherical.phi + st.sphericalDelta.phi },
            sphericalDelta := ⟨0, 0, 0⟩ }
    let phiC := max st.options.minPolarAngle (min st.options.maxPolarAngle s1.spherical.phi)
    let s2 := { s1 with spherical := { s1.spherical with phi := phiC } }
    { s2 with cameraPos := Vec3.add s2.target (vec3FromSpherical m s2.spherical) }

/-- Models the inline ease-in-out curve of fallbackTransition:
p < 0.5 gives 2p^2, otherwise 1 - (-2p + 2)^2 / 2. -/
def easeInOut (p : ℚ) : ℚ :=
  if p < 1/2 then 2 * p * p else 1 - (-2 * p + 2) ^ 2 / 2

/-- Result of running the fallback animation loop: final camera position,
final look-at target, the emitted mutation events, and whether the loop
reached progress 1 (resolved). -/
structure RunResult where
  pos : Vec3
  tgt : Vec3
  events : List Ev
  completed : Bool
deriving DecidableEq

/-- Models the animate loop of CameraController.fallbackTransition.  Each list
entry is the elapsed time (ms) at one invocation of animate (the first entry
being the synchronous call, the rest the requestAnimationFrame callbacks);
an empty remainder means no further frame was delivered, leaving the
transition unresolved. -/
def fallbackRun (startPos startTarget : Vec3) (node : NodeDesc) (durationMs : ℚ)
    (curPos curTgt : Vec3) : List ℚ → RunResult
  | [] => ⟨curPos, curTgt, [], false⟩
  | e :: rest =>
      let progress := min (e / durationMs) 1
      let eased := easeInOut progress
      let pos := lerpVectors startPos node.position eased
      let tgt := lerpVectors startTarget node.target eased
      if progress < 1 then
        let r := fallbackRun startPos startTarget node durationMs pos tgt rest
        ⟨r.pos, r.tgt, Ev.posUpdate pos :: Ev.targetUpdate tgt :: r.events, r.completed⟩
      else
        ⟨pos, tgt, [Ev.posUpdate pos, Ev.targetUpdate tgt], true⟩

/-- The transition duration chosen by navigateToNode: 0.1 s under reduced
motion, else the configured nominal duration. -/
def navDuration (st : Ctrl) : ℚ :=
  if st.options.reducedMotion then 1/10 else st.options.transitionDuration

/-- Models CameraController.navigateToNode on the built-in fallback path
(gsap unavailable): index guards, state entry, synchronous listener
notification, the fallback animation driven by the given frame schedule, and
on completion the exact-end state with the spherical coordinates re-seeded
from the camera pose. -/
def navigateToNode (m : JsMath) (st : Ctrl) (nodeIndex : ℤ) (frames : List ℚ) :
    Ctrl × List Ev :=
  if nodeIndex < 0 ∨ (st.nodePositions.length : ℤ) ≤ nodeIndex then (st, [])
  else if st.isTransitioning then (st, [])
  else
    match st.nodePositions[nodeIndex.toNat]? with
    | none => (st, [])
    | some node =>
      let i := nodeIndex.toNat
      let st1 := { st with currentNodeIndex := i, isTransitioning := true }
      let navEvs := st1.navListeners.map fun l => Ev.navCb l i node.name
      let r := fallbackRun st1.cameraPos st1.target node (navDuration st1 * 1000)
        st1.cameraPos st1.target frames
      let st2 := { st1 with cameraPos := r.pos, target := r.tgt }
      let st3 :=
        if r.completed then
          { st2 with
              spherical := sphericalFromVector3 m (Vec3.sub st2.cameraPos st2.target),
              isTransitioning := false }
        else st2
      (st3, navEvs ++ r.events)

/-- Models CameraController.navigateToNode on the GSAP path: the same guards
and synchronous listener notification, with the external tween abstracted as
the list of mutation events it emits after being started; on completion the
camera position and target hold the destination values and the spherical
coordinates are re-seeded exactly as in the source. -/
def navigateToNodeGsap (m : JsMath) (st : Ctrl) (nodeIndex : ℤ) (tween : List Ev) :
    Ctrl × List Ev :=
  if nodeIndex < 0 ∨ (st.nodePositions.length : ℤ) ≤ nodeIndex then (st, [])
  else if st.isTransitioning then (st, [])
  else
    match st.nodePositions[nodeIndex.toNat]? with
    | none => (st, [])
    | some node =>
      let i := nodeIndex.toNat
      let st1 := { st with currentNodeIndex := i, isTransitioning := true }
      let navEvs := st1.navListeners.map fun l => Ev.navCb l i node.name
      let st2 := { st1 with cameraPos := node.position, target := node.target }
      let st3 :=
        { st2 with
            spherical := sphericalFromVector3 m (Vec3.sub st2.cameraPos st2.target),
            isTransitioning := false }
      (st3, navEvs ++ tween)

/-- The keyboard keys distinguished by CameraController.onKeyDown. -/
inductive Key where
  | digit (n : ℕ)
  | arrowLeft
  | arrowRight
  | arrowUp
  | arrowDown
  | plus
  | minus
  | home
  | tab (shift : Bool)
  | other
deriving DecidableEq

/-- A key whose handler issues a navigation (digits, Home, Tab). -/
def Key.isNavKey : Key → Bool
  | .digit _ => true
  | .home => true
  | .tab _ => true
  | _ => false

/-- Models CameraController.onKeyDown.  Digit keys 1-5 navigate directly;
arrows accumulate rotate deltas; plus and minus apply fixed zoom steps with
one-sided clamps; Home navigates to node 0; Tab cycles with wrap-around. -/
def onKeyDown (m : JsMath) (st : Ctrl) (k : Key) (frames : List ℚ) : Ctrl × List Ev :=
  if !st.enabled then (st, [])
  else
    match k with
    | .digit n =>
        if 1 ≤ n ∧ n ≤ 5 then
          if n - 1 < st.nodePositions.length then
            navigateToNode m st ((n : ℤ) - 1) frames
          else (st, [])
        else (st, [])
    | .arrowLeft =>
        let amt := st.options.rotateSpeed * (1/10)
        ({ st with sphericalDelta :=
            { st.sphericalDelta with theta := st.sphericalDelta.theta + amt } }, [])
    | .arrowRight =>
        let amt := st.options.rotateSpeed * (1/10)
        ({ st with sphericalDelta :=
            { st.sphericalDelta with theta := st.sphericalDelta.theta - amt } }, [])
    | .arrowUp =>
        let amt := st.options.rotateSpeed * (1/10)
        ({ st with sphericalDelta :=
            { st.sphericalDelta with phi := st.sphericalDelta.phi - amt } }, [])
    | .arrowDown =>
        let amt := st.options.rotateSpeed * (1/10)
        ({ st with sphericalDelta :=
            { st.sphericalDelta with phi := st.sphericalDelta.phi + amt } }, [])
    | .plus =>
        ({ st with spherical := { st.spherical with
            radius := max st.options.minDistance (st.spherical.radius - 2) } }, [])
    | .minus =>
        ({ st with spherical := { st.spherical with
            radius := min st.options.maxDistance (st.spherical.radius + 2) } }, [])
    | .home => navigateToNode m st 0 frames
    | .tab shift =>
        let len : ℤ := st.nodePositions.length
        let next : ℤ :=
          if shift then ((st.currentNodeIndex : ℤ) - 1 + len) % len
          else ((st.currentNodeIndex : ℤ) + 1) % len
        navigateToNode m st next frames
    | .other => (st, [])

/-- Models the InteractionManager state fields the verified properties
mention: the hovered object, the selected object, the enabled flag and the
cursor style. -/
structure IM where
  hoveredObject : Option Obj
  selectedObject : Option Obj
  isEnabled : Bool
  cursor : String
deriving DecidableEq

/-- Models InteractionManager.checkHover, taking the raycast result (the
intersected objects, nearest first) as input. -/
def checkHover (st : IM) (intersections : List Obj) : IM × List Ev :=
  match intersections with
  | firstHit :: _ =>
      let nodeGroup := findNodeGroup firstHit
      if nodeGroup ≠ st.hoveredObject then
        let unhoverEvs :=
          match st.hoveredObject with
          | some prev => [Ev.unhover prev]
          | none => []
        ({ st with hoveredObject := nodeGroup, cursor := "pointer" },
         unhoverEvs ++ [Ev.hover nodeGroup])
      else (st, [])
  | [] =>
      match st.hoveredObject with
      | some prev =>
          ({ st with hoveredObject := none, cursor := "grab" }, [Ev.unhover prev])
      | none => (st, [])

/-- Models InteractionManager.onClick, taking the raycast result as input. -/
def imOnClick (st : IM) (intersections : List Obj) : IM × List Ev :=
  if !st.isEnabled then (st, [])
  else
    match intersections with
    | firstHit :: _ =>
        match findNodeGroup firstHit with
        | some ng =>
            ({ st with selectedObject := some ng },
             [Ev.click ng, Ev.selectEv ng])
        | none => (st, [])
    | [] => (st, [])

/-- Combined application state: the CameraController and the
InteractionManager as wired together in main.js. -/
structure AppState where
  ctrl : Ctrl
  im : IM
deriving DecidableEq

/-- Models the select listener registered by the application in main.js: a
select event forwards the node index to CameraController.navigateToNode;
other channels leave the controller untouched. -/
def appSelectStep (m : JsMath) (frames : List ℚ) (acc : Ctrl × List Ev)
    (ev : Ev) : Ctrl × List Ev :=
  match ev with
  | Ev.selectEv ng =>
      let r := navigateToNode m acc.1 (ng.nodeIdx : ℤ) frames
      (r.1, acc.2 ++ r.2)
  | _ => acc

/-- Models a click as wired in main.js: InteractionManager.onClick fires its
channels, and the select listener forwards to the camera controller. -/
def appClick (m : JsMath) (app : AppState) (intersections : List Obj)
    (frames : List ℚ) : AppState × List Ev :=
  let imr := imOnClick app.im intersections
  let cr := imr.2.foldl (appSelectStep m frames) (app.ctrl, [])
  (⟨cr.1, imr.1⟩, imr.2 ++ cr.2)

/-- The zoom-input alphabet of claim C1: wheel, pinch, keyboard plus and
minus, and frame ticks. -/
inductive ZoomInput where
  | wheel (deltaY : ℚ)
  | touchMove (touches : List (ℚ × ℚ))
  | keyPlus
  | keyMinus
  | tick (dt : ℚ)
deriving DecidableEq

/-- Applies one zoom input through the corresponding source handler. -/
def applyZoomInput (m : JsMath) (st : Ctrl) : ZoomInput → Ctrl
  | .wheel d => onWheel st d
  | .touchMove ts => onTouchMove m st ts
  | .keyPlus => (onKeyDown m st .plus []).1
  | .keyMinus => (onKeyDown m st .minus []).1
  | .tick dt => update m st dt

/-- The rotate-input alphabet of claim C2: pointer drag, arrow keys, and
frame ticks. -/
inductive RotateInput where
  | pointerDown (button : ℕ) (x y : ℚ)
  | pointerMove (x y : ℚ)
  | pointerUp
  | arrowLeft
  | arrowRight
  | arrowUp
  | arrowDown
  | tick (dt : ℚ)
deriving DecidableEq

/-- Applies one rotate input through the corresponding source handler. -/
def applyRotateInput (m : JsMath) (st : Ctrl) : RotateInput → Ctrl
  | .pointerDown b x y => onPointerDown st b x y
  | .pointerMove x y => onPointerMove st x y
  | .pointerUp => onPointerUp st
  | .arrowLeft => (onKeyDown m st .arrowLeft []).1
  | .arrowRight => (onKeyDown m st .arrowRight []).1
  | .arrowUp => (onKeyDown m st .arrowUp []).1
  | .arrowDown => (onKeyDown m st .arrowDown []).1
  | .tick dt => update m st dt

lemma foldl_preserves {α σ : Type} (f : σ → α → σ) (P : σ → Prop)
    (hstep : ∀ s a, P s → P (f s a)) :
    ∀ (l : List α) (s : σ), P s → P (l.foldl f s)
  | [], _, h => h
  | a :: l, s, h => foldl_preserves f P hstep l (f s a) (hstep s a h)

lemma update_radius (m : JsMath) (st : Ctrl) (d : ℚ) :
    (update m st d).spherical.radius = st.spherical.radius := by
  unfold update
  split
  · rfl
  · dsimp only
    split <;> rfl

lemma update_frame (m : JsMath) (st : Ctrl) (d : ℚ) :
    (update m st d).options = st.options ∧ (update m st d).enabled = st.enabled ∧
      (update m st d).isTransitioning = st.isTransitioning := by
  unfold update
  split
  · exact ⟨rfl, rfl, rfl⟩
  · dsimp only
    split <;> exact ⟨rfl, rfl, rfl⟩

lemma onWheel_clamp (s : Ctrl) (d : ℚ)
    (h : s.options.minDistance ≤ s.spherical.radius ∧
         s.spherical.radius ≤ s.options.maxDistance) :
    (onWheel s d).options = s.options ∧
    s.options.minDistance ≤ (onWheel s d).spherical.radius ∧
    (onWheel s d).spherical.radius ≤ s.options.maxDistance := by
  have hmm : s.options.minDistance ≤ s.options.maxDistance := le_trans h.1 h.2
  unfold onWheel
  split
  · exact ⟨rfl, h⟩
  · exact ⟨rfl, le_max_left _ _, max_le hmm (min_le_left _ _)⟩

lemma onTouchMove_clamp (m : JsMath) (s : Ctrl) (ts : List (ℚ × ℚ))
    (h : s.options.minDistance ≤ s.spherical.radius ∧
         s.spherical.radius ≤ s.options.maxDistance) :
    (onTouchMove m s ts).options = s.options ∧
    s.options.minDistance ≤ (onTouchMove m s ts).spherical.radius ∧
    (onTouchMove m s ts).spherical.radius ≤ s.options.maxDistance := by
  have hmm : s.options.minDistance ≤ s.options.maxDistance := le_trans h.1 h.2
  unfold onTouchMove
  split
  · exact ⟨rfl, h⟩
  · split
    · exact ⟨rfl, le_max_left _ _, max_le hmm (min_le_left _ _)⟩
    · exact ⟨rfl, h⟩

lemma keyPlus_clamp (m : JsMath) (s : Ctrl)
    (h : s.options.minDistance ≤ s.spherical.radius ∧
         s.spherical.radius ≤ s.options.maxDistance) :
    (onKeyDown m s .plus []).1.options = s.options ∧
    s.options.minDistance ≤ (onKeyDown m s .plus []).1.spherical.radius ∧
    (onKeyDown m s .plus []).1.spherical.radius ≤ s.options.maxDistance := by
  have hmm : s.options.minDistance ≤ s.options.maxDistance := le_trans h.1 h.2
  unfold onKeyDown
  split
  · exact ⟨rfl, h⟩
  · refine ⟨rfl, le_max_left _ _, max_le hmm ?_⟩
    have := h.2
    linarith

lemma keyMinus_clamp (m : JsMath) (s : Ctrl)
    (h : s.options.minDistance ≤ s.spherical.radius ∧
         s.spherical.radius ≤ s.options.maxDistance) :
    (onKeyDown m s .minus []).1.options = s.options ∧
    s.options.minDistance ≤ (onKeyDown m s .minus []).1.spherical.radius ∧
    (onKeyDown m s .minus []).1.spherical.radius ≤ s.options.maxDistance := by
  have hmm : s.options.minDistance ≤ s.options.maxDistance := le_trans h.1 h.2
  unfold onKeyDown
  split
  · exact ⟨rfl, h⟩
  · refine ⟨rfl, le_min hmm ?_, min_le_left _ _⟩
    have := h.1
    linarith

lemma zoom_step (m : JsMath) (s : Ctrl) (z : ZoomInput)
    (h : s.options.minDistance ≤ s.spherical.radius ∧
         s.spherical.radius ≤ s.options.maxDistance) :
    (applyZoomInput m s z).options = s.options ∧
    (s.options.minDistance ≤ (applyZoomInput m s z).spherical.radius ∧
      (applyZoomInput m s z).spherical.radius ≤ s.options.maxDistance) := by
  cases z with
  | wheel d =>
      have hw := onWheel_clamp s d h
      exact ⟨hw.1, hw.2⟩
  | touchMove ts =>
      have hw := onTouchMove_clamp m s ts h
      exact ⟨hw.1, hw.2⟩
  | keyPlus =>
      have hw := keyPlus_clamp m s h
      exact ⟨hw.1, hw.2⟩
  | keyMinus =>
      have hw := keyMinus_clamp m s h
      exact ⟨hw.1, hw.2⟩
  | tick dt =>
      refine ⟨(update_frame m s dt).1, ?_⟩
      show s.options.minDistance ≤ (update m s dt).spherical.radius ∧
        (update m s dt).spherical.radius ≤ s.options.maxDistance
      rw [update_radius m s dt]
      exact h

/-- C1: for every sequence of zoom inputs (wheel, pinch, keyboard plus and
minus) and update ticks applied to a controller whose radius starts within
[minDistance, maxDistance], the radius stays within that interval after every
step; in particular the one-sided clamps of the keyboard plus and minus
branches cannot move the radius out of range. -/
theorem zoom_clamp_invariant (m : JsMath) (st : Ctrl)
    (h : st.options.minDistance ≤ st.spherical.radius ∧
         st.spherical.radius ≤ st.options.maxDistance)
    (inputs : List ZoomInput) :
    st.options.minDistance ≤ (inputs.foldl (applyZoomInput m) st).spherical.radius ∧
      (inputs.foldl (applyZoomInput m) st).spherical.radius ≤
        st.options.maxDistance := by
  have hP := foldl_preserves (applyZoomInput m)
    (fun s => s.options = st.options ∧
      (st.options.minDistance ≤ s.spherical.radius ∧
        s.spherical.radius ≤ st.options.maxDistance))
    (fun s a hs => by
      have hstep := zoom_step m s a (by rw [hs.1] at *; exact hs.2)
      exact ⟨hstep.1.trans hs.1, by rw [← hs.1]; exact hstep.2⟩)
    inputs st ⟨rfl, h⟩
  exact hP.2

/-- A concrete controller state used to instantiate witnesses. -/
def witnessCtrl : Ctrl :=
  { options := defaultOptions jsMathTriv
    spherical := ⟨50, 1, 0⟩
    sphericalDelta := ⟨0, 0, 0⟩
    target := ⟨0, 0, 0⟩
    enabled := true
    isTransitioning := false
    currentNodeIndex := 0
    nodePositions := defaultNodePositions
    pointerState := ⟨false, 0, 0, 0, 0⟩
    touchState := ⟨0, 0⟩
    navListeners := [0, 1]
    cameraPos := ⟨0, 0, 50⟩ }

theorem zoom_clamp_invariant_witness :
    witnessCtrl.options.minDistance ≤
      (([ZoomInput.wheel 100, ZoomInput.keyPlus, ZoomInput.keyMinus,
         ZoomInput.tick 1].foldl (applyZoomInput jsMathTriv) witnessCtrl)).spherical.radius ∧
    (([ZoomInput.wheel 100, ZoomInput.keyPlus, ZoomInput.keyMinus,
       ZoomInput.tick 1].foldl (applyZoomInput jsMathTriv) witnessCtrl)).spherical.radius ≤
      witnessCtrl.options.maxDistance :=
  zoom_clamp_invariant jsMathTriv witnessCtrl (by decide)
    [ZoomInput.wheel 100, ZoomInput.keyPlus, ZoomInput.keyMinus, ZoomInput.tick 1]

lemma onPointerDown_frame (s : Ctrl) (b : ℕ) (x y : ℚ) :
    (onPointerDown s b x y).options = s.options ∧
    (onPointerDown s b x y).enabled = s.enabled ∧
    (onPointerDown s b x y).isTransitioning = s.isTransitioning := by
  unfold onPointerDown
  split
  · exact ⟨rfl, rfl, rfl⟩
  · split <;> exact ⟨rfl, rfl, rfl⟩

lemma onPointerMove_frame (s : Ctrl) (x y : ℚ) :
    (onPointerMove s x y).options = s.options ∧
    (onPointerMove s x y).enabled = s.enabled ∧
    (onPointerMove s x y).isTransitioning = s.isTransitioning := by
  unfold onPointerMove
  split <;> exact ⟨rfl, rfl, rfl⟩

lemma arrow_frame (m : JsMath) (s : Ctrl) (k : Key)
    (hk : k = Key.arrowLeft ∨ k = Key.arrowRight ∨ k = Key.arrowUp ∨ k = Key.arrowDown) :
    (onKeyDown m s k []).1.options = s.options ∧
    (onKeyDown m s k []).1.enabled = s.enabled ∧
    (onKeyDown m s k []).1.isTransitioning = s.isTransitioning := by
  rcases hk with h | h | h | h <;> subst h <;> unfold onKeyDown <;> split <;>
    exact ⟨rfl, rfl, rfl⟩

lemma rotate_frame (m : JsMath) (s : Ctrl) (r : RotateInput) :
    (applyRotateInput m s r).options = s.options ∧
    (applyRotateInput m s r).enabled = s.enabled ∧
    (applyRotateInput m s r).isTransitioning = s.isTransitioning := by
  cases r with
  | pointerDown b x y => exact onPointerDown_frame s b x y
  | pointerMove x y => exact onPointerMove_frame s x y
  | pointerUp => exact ⟨rfl, rfl, rfl⟩
  | arrowLeft => exact arrow_frame m s Key.arrowLeft (Or.inl rfl)
  | arrowRight => exact arrow_frame m s Key.arrowRight (Or.inr (Or.inl rfl))
  | arrowUp => exact arrow_frame m s Key.arrowUp (Or.inr (Or.inr (Or.inl rfl)))
  | arrowDown => exact arrow_frame m s Key.arrowDown (Or.inr (Or.inr (Or.inr rfl)))
  | tick dt =>
      have hu := update_frame m s dt
      exact ⟨hu.1, hu.2.1, hu.2.2⟩

lemma update_phi_clamped (m : JsMath) (s : Ctrl) (dt : ℚ)
    (hE : s.enabled = true) (hT : s.isTransitioning = false)
    (hpp : s.options.minPolarAngle ≤ s.options.maxPolarAngle) :
    s.options.minPolarAngle ≤ (update m s dt).spherical.phi ∧
    (update m s dt).spherical.phi ≤ s.options.maxPolarAngle := by
  unfold update
  rw [hE, hT]
  split
  · rename_i hcond
    simp at hcond
  · dsimp only
    split <;> exact ⟨le_max_left _ _, max_le hpp (min_le_left _ _)⟩

/-- C2: for every sequence of rotate-delta inputs (pointer drag, arrow keys)
and update calls on an enabled, non-transitioning controller, the polar angle
phi lies within [minPolarAngle, maxPolarAngle] immediately after every update
call, with damping enabled or disabled. -/
theorem polar_clamp_invariant (m : JsMath) (st : Ctrl)
    (hE : st.enabled = true) (hT : st.isTransitioning = false)
    (hpp : st.options.minPolarAngle ≤ st.options.maxPolarAngle)
    (inputs : List RotateInput) (dt : ℚ) :
    st.options.minPolarAngle ≤
      (update m (inputs.foldl (applyRotateInput m) st) dt).spherical.phi ∧
    (update m (inputs.foldl (applyRotateInput m) st) dt).spherical.phi ≤
      st.options.maxPolarAngle := by
  have hfold := foldl_preserves (applyRotateInput m)
    (fun s => s.options = st.options ∧ s.enabled = true ∧ s.isTransitioning = false)
    (fun s a hs => by
      have hf := rotate_frame m s a
      exact ⟨hf.1.trans hs.1, hf.2.1.trans hs.2.1, hf.2.2.trans hs.2.2⟩)
    inputs st ⟨rfl, hE, hT⟩
  have hcl := update_phi_clamped m (inputs.foldl (applyRotateInput m) st) dt
    hfold.2.1 hfold.2.2 (by rw [hfold.1]; exact hpp)
  rw [hfold.1] at hcl
  exact hcl

theorem polar_clamp_invariant_witness :
    witnessCtrl.options.minPolarAngle ≤
      (update jsMathTriv
        ([RotateInput.pointerDown 0 3 4, RotateInput.pointerMove 10 20,
          RotateInput.arrowUp, RotateInput.tick 1].foldl
          (applyRotateInput jsMathTriv) witnessCtrl) 1).spherical.phi ∧
    (update jsMathTriv
        ([RotateInput.pointerDown 0 3 4, RotateInput.pointerMove 10 20,
          RotateInput.arrowUp, RotateInput.tick 1].foldl
          (applyRotateInput jsMathTriv) witnessCtrl) 1).spherical.phi ≤
      witnessCtrl.options.maxPolarAngle :=
  polar_clamp_invariant jsMathTriv witnessCtrl (by decide) (by decide)
    (by norm_num [witnessCtrl, defaultOptions, jsMathTriv])
    [RotateInput.pointerDown 0 3 4, RotateInput.pointerMove 10 20,
     RotateInput.arrowUp, RotateInput.tick 1] 1

/-- C3: navigateToNode is a silent no-op, changing no state and emitting no
events, when the index is negative, at least the node count, or a transition
is already active; in particular the in-flight destination (part of the
unchanged state) is untouched.  Both the fallback path and the GSAP path are
covered. -/
lemma navigateToNode_noop (m : JsMath) (st : Ctrl) (i : ℤ) (frames : List ℚ)
    (h : i < 0 ∨ (st.nodePositions.length : ℤ) ≤ i ∨ st.isTransitioning = true) :
    navigateToNode m st i frames = (st, []) := by
  unfold navigateToNode
  rcases h with h | h | h
  · rw [if_pos (Or.inl h)]
  · rw [if_pos (Or.inr h)]
  · by_cases hg : i < 0 ∨ (st.nodePositions.length : ℤ) ≤ i
    · rw [if_pos hg]
    · rw [if_neg hg, if_pos h]

lemma navigateToNodeGsap_noop (m : JsMath) (st : Ctrl) (i : ℤ) (tween : List Ev)
    (h : i < 0 ∨ (st.nodePositions.length : ℤ) ≤ i ∨ st.isTransitioning = true) :
    navigateToNodeGsap m st i tween = (st, []) := by
  unfold navigateToNodeGsap
  rcases h with h | h | h
  · rw [if_pos (Or.inl h)]
  · rw [if_pos (Or.inr h)]
  · by_cases hg : i < 0 ∨ (st.nodePositions.length : ℤ) ≤ i
    · rw [if_pos hg]
    · rw [if_neg hg, if_pos h]

theorem navigate_reject_noop (m : JsMath) (st : Ctrl) (i : ℤ)
    (frames : List ℚ) (tween : List Ev)
    (h : i < 0 ∨ (st.nodePositions.length : ℤ) ≤ i ∨ st.isTransitioning = true) :
    navigateToNode m st i frames = (st, []) ∧
    navigateToNodeGsap m st i tween = (st, []) :=
  ⟨navigateToNode_noop m st i frames h, navigateToNodeGsap_noop m st i tween h⟩

/-- A controller with a transition in flight, for witnesses. -/
def transitioningCtrl : Ctrl := { witnessCtrl with isTransitioning := true }

theorem navigate_reject_noop_witness :
    navigateToNode jsMathTriv transitioningCtrl 2 [1000] = (transitioningCtrl, []) ∧
    navigateToNodeGsap jsMathTriv transitioningCtrl 2 [] = (transitioningCtrl, []) :=
  navigate_reject_noop jsMathTriv transitioningCtrl 2 [1000] []
    (Or.inr (Or.inr (by decide)))

lemma fallbackRun_events_motion (sp stt : Vec3) (node : NodeDesc) (dms : ℚ)
    (frames : List ℚ) :
    ∀ (cp ct : Vec3) (ev : Ev),
      ev ∈ (fallbackRun sp stt node dms cp ct frames).events → ev.isMotion = true := by
  induction frames with
  | nil =>
      intro cp ct ev hev
      simp [fallbackRun] at hev
  | cons e rest ih =>
      intro cp ct ev hev
      rw [fallbackRun] at hev
      dsimp only at hev
      split at hev
      · rcases List.mem_cons.mp hev with h | hev2
        · subst h; rfl
        · rcases List.mem_cons.mp hev2 with h | hev3
          · subst h; rfl
          · exact ih _ _ ev hev3
      · rcases List.mem_cons.mp hev with h | hev2
        · subst h; rfl
        · rcases List.mem_cons.mp hev2 with h | hev3
          · subst h; rfl
          · simp at hev3

/-- C4: every accepted navigateToNode call notifies the registered navigation
listeners synchronously with the index and node name, in registration order,
and every event after that listener block is a camera-position or look-at
mutation — so all listener calls strictly precede the first motion, on the
fallback path and on the GSAP path alike. -/
theorem navigate_listeners_first (m : JsMath) (st : Ctrl) (i : ℤ)
    (frames : List ℚ) (tween : List Ev)
    (h0 : 0 ≤ i) (h1 : i < (st.nodePositions.length : ℤ))
    (hT : st.isTransitioning = false)
    (_htw : ∀ ev ∈ tween, ev.isMotion = true) :
    ∃ node, st.nodePositions[i.toNat]? = some node ∧
      (∃ motion, (navigateToNode m st i frames).2 =
          (st.navListeners.map fun l => Ev.navCb l i.toNat node.name) ++ motion ∧
        ∀ ev ∈ motion, ev.isMotion = true) ∧
      (navigateToNodeGsap m st i tween).2 =
        (st.navListeners.map fun l => Ev.navCb l i.toNat node.name) ++ tween := by
  have hguard : ¬(i < 0 ∨ (st.nodePositions.length : ℤ) ≤ i) := by omega
  have hi : i.toNat < st.nodePositions.length := by omega
  have hEq : st.nodePositions[i.toNat]? = some st.nodePositions[i.toNat] :=
    List.getElem?_eq_getElem hi
  refine ⟨st.nodePositions[i.toNat], hEq, ⟨?_, ?_, ?_⟩, ?_⟩
  · exact (fallbackRun st.cameraPos st.target st.nodePositions[i.toNat]
      (navDuration st * 1000) st.cameraPos st.target frames).events
  · unfold navigateToNode
    rw [if_neg hguard, if_neg (by simp [hT]), hEq]
    rfl
  · exact fun ev hev => fallbackRun_events_motion _ _ _ _ frames _ _ ev hev
  · unfold navigateToNodeGsap
    rw [if_neg hguard, if_neg (by simp [hT]), hEq]

theorem navigate_listeners_first_witness :
    ∃ node, witnessCtrl.nodePositions[(2 : ℤ).toNat]? = some node ∧
      (∃ motion, (navigateToNode jsMathTriv witnessCtrl 2 [1000, 2000]).2 =
          (witnessCtrl.navListeners.map fun l => Ev.navCb l (2 : ℤ).toNat node.name) ++
            motion ∧
        ∀ ev ∈ motion, ev.isMotion = true) ∧
      (navigateToNodeGsap jsMathTriv witnessCtrl 2 []).2 =
        (witnessCtrl.navListeners.map fun l => Ev.navCb l (2 : ℤ).toNat node.name) ++ [] :=
  navigate_listeners_first jsMathTriv witnessCtrl 2 [1000, 2000] []
    (by decide) (by decide) (by decide) (by simp)

/-- Midpoint of two vectors, stated the way the specification words it. -/
def midpointV (a b : Vec3) : Vec3 :=
  ⟨(a.x + b.x) / 2, (a.y + b.y) / 2, (a.z + b.z) / 2⟩

lemma lerpVectors_half (a b : Vec3) : lerpVectors a b (1/2) = midpointV a b := by
  simp only [lerpVectors, midpointV, Vec3.mk.injEq]
  refine ⟨by ring, by ring, by ring⟩

lemma lerpVectors_one (a b : Vec3) : lerpVectors a b 1 = b := by
  cases b with
  | mk x y z =>
      simp only [lerpVectors, Vec3.mk.injEq]
      refine ⟨by ring, by ring, by ring⟩

lemma easeInOut_half : easeInOut (1/2) = 1/2 := by norm_num [easeInOut]

lemma easeInOut_one : easeInOut 1 = 1 := by norm_num [easeInOut]

lemma fallbackRun_last (sp stt cp ct : Vec3) (node : NodeDesc) (dms : ℚ)
    (hd : 0 < dms) (e : ℚ) (he : dms ≤ e) (rest : List ℚ) :
    fallbackRun sp stt node dms cp ct (e :: rest) =
      ⟨node.position, node.target,
       [Ev.posUpdate node.position, Ev.targetUpdate node.target], true⟩ := by
  have hprog : min (e / dms) 1 = 1 :=
    min_eq_right ((one_le_div hd).mpr he)
  rw [fallbackRun]
  dsimp only
  rw [hprog, easeInOut_one, lerpVectors_one, lerpVectors_one,
    if_neg (lt_irrefl (1 : ℚ))]

/-- C5: the built-in fallback transition computes eased progress exactly as
2p^2 below one half and 1 - (-2p + 2)^2 / 2 above, from linear progress
min(elapsed/duration, 1); at elapsed = duration/2 the emitted camera position
is exactly the midpoint of start and destination, and at the step where the
linear progress reaches 1 the final camera position equals the destination
exactly and the transition resolves. -/
theorem fallback_ease_exact (sp stt cp ct : Vec3) (node : NodeDesc) (dms : ℚ)
    (hd : 0 < dms) (e : ℚ) (he : dms ≤ e) (rest : List ℚ) :
    (∀ p : ℚ, easeInOut p = if p < 1/2 then 2 * p * p else 1 - (-2 * p + 2) ^ 2 / 2) ∧
    (fallbackRun sp stt node dms cp ct (dms/2 :: rest)).events.head? =
      some (Ev.posUpdate (midpointV sp node.position)) ∧
    (fallbackRun sp stt node dms cp ct [e]).pos = node.position ∧
    (fallbackRun sp stt node dms cp ct [e]).completed = true := by
  refine ⟨fun p => rfl, ?_, ?_, ?_⟩
  · have hhalf : dms / 2 / dms = 1/2 := by
      field_simp
      ring
    have hprog : min (dms / 2 / dms) 1 = 1/2 := by
      rw [hhalf]
      norm_num
    rw [fallbackRun]
    dsimp only
    rw [hprog, easeInOut_half, lerpVectors_half,
      if_pos (by norm_num : (1:ℚ)/2 < 1)]
    rfl
  · rw [fallbackRun_last sp stt cp ct node dms hd e he []]
  · rw [fallbackRun_last sp stt cp ct node dms hd e he []]

theorem fallback_ease_exact_witness :
    (∀ p : ℚ, easeInOut p = if p < 1/2 then 2 * p * p else 1 - (-2 * p + 2) ^ 2 / 2) ∧
    (fallbackRun ⟨0, 0, 50⟩ ⟨0, 0, 0⟩ ⟨⟨-30, 10, 20⟩, ⟨-25, 5, 5⟩, "Work"⟩ 2000
        ⟨0, 0, 50⟩ ⟨0, 0, 0⟩ (2000/2 :: [1500, 2200])).events.head? =
      some (Ev.posUpdate (midpointV ⟨0, 0, 50⟩ ⟨-30, 10, 20⟩)) ∧
    (fallbackRun ⟨0, 0, 50⟩ ⟨0, 0, 0⟩ ⟨⟨-30, 10, 20⟩, ⟨-25, 5, 5⟩, "Work"⟩ 2000
        ⟨0, 0, 50⟩ ⟨0, 0, 0⟩ [2000]).pos = Vec3.mk (-30) 10 20 ∧
    (fallbackRun ⟨0, 0, 50⟩ ⟨0, 0, 0⟩ ⟨⟨-30, 10, 20⟩, ⟨-25, 5, 5⟩, "Work"⟩ 2000
        ⟨0, 0, 50⟩ ⟨0, 0, 0⟩ [2000]).completed = true :=
  fallback_ease_exact ⟨0, 0, 50⟩ ⟨0, 0, 0⟩ ⟨0, 0, 50⟩ ⟨0, 0, 0⟩
    ⟨⟨-30, 10, 20⟩, ⟨-25, 5, 5⟩, "Work"⟩ 2000 (by norm_num) 2000 (by norm_num)
    [1500, 2200]

lemma navigate_complete_trace (m : JsMath) (st : Ctrl) (i : ℤ) (e : ℚ)
    (node : NodeDesc)
    (h0 : 0 ≤ i) (h1 : i < (st.nodePositions.length : ℤ))
    (hT : st.isTransitioning = false)
    (hEq : st.nodePositions[i.toNat]? = some node)
    (hdp : 0 < navDuration st) (hde : navDuration st * 1000 ≤ e) :
    navigateToNode m st i [e] =
      ({ st with
          currentNodeIndex := i.toNat,
          isTransitioning := false,
          cameraPos := node.position,
          target := node.target,
          spherical := sphericalFromVector3 m (Vec3.sub node.position node.target) },
       (st.navListeners.map fun l => Ev.navCb l i.toNat node.name) ++
         [Ev.posUpdate node.position, Ev.targetUpdate node.target]) := by
  have hguard : ¬(i < 0 ∨ (st.nodePositions.length : ℤ) ≤ i) := by omega
  have hdms : (0 : ℚ) < navDuration st * 1000 := by positivity
  unfold navigateToNode
  rw [if_neg hguard, if_neg (by simp [hT]), hEq]
  dsimp only
  rw [show navDuration { st with currentNodeIndex := i.toNat, isTransitioning := true } =
        navDuration st from rfl]
  rw [fallbackRun_last st.cameraPos st.target st.cameraPos st.target node
    (navDuration st * 1000) hdms e hde []]
  rfl

/-- C6: with the reduced-motion preference active, navigateToNode uses the
near-zero duration 0.1 s regardless of the configured nominal duration, the
transition completes within the first animation tick once 100 ms have
elapsed, and the event ordering is identical to normal mode: all navigation
listeners fire before the single camera-position update. -/
theorem reduced_motion_one_tick (m : JsMath) (st : Ctrl) (i : ℤ) (e : ℚ)
    (h0 : 0 ≤ i) (h1 : i < (st.nodePositions.length : ℤ))
    (hT : st.isTransitioning = false)
    (hR : st.options.reducedMotion = true) (he : 100 ≤ e) :
    ∃ node, st.nodePositions[i.toNat]? = some node ∧
      (navigateToNode m st i [e]).2 =
        (st.navListeners.map fun l => Ev.navCb l i.toNat node.name) ++
          [Ev.posUpdate node.position, Ev.targetUpdate node.target] ∧
      (navigateToNode m st i [e]).1.isTransitioning = false ∧
      (∀ d : ℚ,
        (navigateToNode m
          { st with options := { st.options with transitionDuration := d } } i [e]).2 =
          (navigateToNode m st i [e]).2) := by
  have hi : i.toNat < st.nodePositions.length := by omega
  have hEq : st.nodePositions[i.toNat]? = some st.nodePositions[i.toNat] :=
    List.getElem?_eq_getElem hi
  have hnd : navDuration st = 1/10 := by
    unfold navDuration
    rw [hR]
    rfl
  have hkey := navigate_complete_trace m st i e st.nodePositions[i.toNat]
    h0 h1 hT hEq (by rw [hnd]; norm_num) (by rw [hnd]; linarith)
  refine ⟨st.nodePositions[i.toNat], hEq, ?_, ?_, ?_⟩
  · rw [hkey]
  · rw [hkey]
  · intro d
    have hnd2 : navDuration { st with options :=
        { st.options with transitionDuration := d } } = 1/10 := by
      unfold navDuration
      rw [show ({ st with options := { st.options with transitionDuration := d } } :
        Ctrl).options.reducedMotion = true from hR]
      rfl
    have hkey2 := navigate_complete_trace m
      { st with options := { st.options with transitionDuration := d } } i e
      st.nodePositions[i.toNat] h0 h1 hT hEq
      (by rw [hnd2]; norm_num) (by rw [hnd2]; linarith)
    rw [hkey, hkey2]

theorem reduced_motion_one_tick_witness :
    ∃ node,
      ({ witnessCtrl with options :=
          { witnessCtrl.options with reducedMotion := true } } :
            Ctrl).nodePositions[(1 : ℤ).toNat]? = some node ∧
      (navigateToNode jsMathTriv
        { witnessCtrl with options :=
            { witnessCtrl.options with reducedMotion := true } } 1 [100]).2 =
        (({ witnessCtrl with options :=
            { witnessCtrl.options with reducedMotion := true } } :
              Ctrl).navListeners.map fun l => Ev.navCb l (1 : ℤ).toNat node.name) ++
          [Ev.posUpdate node.position, Ev.targetUpdate node.target] ∧
      (navigateToNode jsMathTriv
        { witnessCtrl with options :=
            { witnessCtrl.options with reducedMotion := true } } 1 [100]).1.isTransitioning =
        false ∧
      (∀ d : ℚ,
        (navigateToNode jsMathTriv
          { { witnessCtrl with options :=
              { witnessCtrl.options with reducedMotion := true } } with
              options := { ({ witnessCtrl with options :=
                { witnessCtrl.options with reducedMotion := true } } :
                  Ctrl).options with transitionDuration := d } } 1 [100]).2 =
          (navigateToNode jsMathTriv
            { witnessCtrl with options :=
                { witnessCtrl.options with reducedMotion := true } } 1 [100]).2) :=
  reduced_motion_one_tick jsMathTriv
    { witnessCtrl with options := { witnessCtrl.options with reducedMotion := true } }
    1 100 (by decide) (by decide) (by decide) (by decide) (by norm_num)

/-- One key press followed by a frame schedule that delivers a single
animation frame at elapsed time e. -/
def pressKey (m : JsMath) (e : ℚ) (st : Ctrl) (k : Key) : Ctrl :=
  (onKeyDown m st k [e]).1

lemma tab_next_fields (m : JsMath) (st : Ctrl) (e : ℚ)
    (hE : st.enabled = true) (hT : st.isTransitioning = false)
    (hN : 0 < st.nodePositions.length)
    (hdp : 0 < navDuration st) (hde : navDuration st * 1000 ≤ e) :
    (pressKey m e st (Key.tab false)).currentNodeIndex =
      (st.currentNodeIndex + 1) % st.nodePositions.length ∧
    (pressKey m e st (Key.tab false)).enabled = true ∧
    (pressKey m e st (Key.tab false)).isTransitioning = false ∧
    (pressKey m e st (Key.tab false)).nodePositions = st.nodePositions ∧
    (pressKey m e st (Key.tab false)).options = st.options := by
  have hlen : ((st.nodePositions.length : ℤ)) ≠ 0 := by
    exact_mod_cast Nat.pos_iff_ne_zero.mp hN
  set next : ℤ := ((st.currentNodeIndex : ℤ) + 1) % (st.nodePositions.length : ℤ)
    with hnext
  have hnn : 0 ≤ next := Int.emod_nonneg _ hlen
  have hlt : next < (st.nodePositions.length : ℤ) :=
    Int.emod_lt_of_pos _ (by exact_mod_cast hN)
  have hi : next.toNat < st.nodePositions.length := by omega
  have hEq : st.nodePositions[next.toNat]? = some st.nodePositions[next.toNat] :=
    List.getElem?_eq_getElem hi
  have hkey := navigate_complete_trace m st next e st.nodePositions[next.toNat]
    hnn hlt hT hEq hdp hde
  have hres : pressKey m e st (Key.tab false) = (navigateToNode m st next [e]).1 := by
    unfold pressKey onKeyDown
    rw [if_neg (by simp [hE])]
    rfl
  have htn : next.toNat = (st.currentNodeIndex + 1) % st.nodePositions.length := by
    rw [hnext,
      show ((st.currentNodeIndex : ℤ) + 1) =
        ((st.currentNodeIndex + 1 : ℕ) : ℤ) by push_cast; ring,
      ← Int.natCast_mod, Int.toNat_natCast]
  rw [hres, hkey, ← htn]
  exact ⟨rfl, hE, rfl, rfl, rfl⟩

lemma tab_prev_fields (m : JsMath) (st : Ctrl) (e : ℚ)
    (hE : st.enabled = true) (hT : st.isTransitioning = false)
    (hN : 0 < st.nodePositions.length)
    (hdp : 0 < navDuration st) (hde : navDuration st * 1000 ≤ e) :
    (pressKey m e st (Key.tab true)).currentNodeIndex =
      (st.currentNodeIndex + st.nodePositions.length - 1) % st.nodePositions.length := by
  have hlen : ((st.nodePositions.length : ℤ)) ≠ 0 := by
    exact_mod_cast Nat.pos_iff_ne_zero.mp hN
  set next : ℤ := ((st.currentNodeIndex : ℤ) - 1 + (st.nodePositions.length : ℤ)) %
    (st.nodePositions.length : ℤ) with hnext
  have hnn : 0 ≤ next := Int.emod_nonneg _ hlen
  have hlt : next < (st.nodePositions.length : ℤ) :=
    Int.emod_lt_of_pos _ (by exact_mod_cast hN)
  have hi : next.toNat < st.nodePositions.length := by omega
  have hEq : st.nodePositions[next.toNat]? = some st.nodePositions[next.toNat] :=
    List.getElem?_eq_getElem hi
  have hkey := navigate_complete_trace m st next e st.nodePositions[next.toNat]
    hnn hlt hT hEq hdp hde
  have hres : pressKey m e st (Key.tab true) = (navigateToNode m st next [e]).1 := by
    unfold pressKey onKeyDown
    rw [if_neg (by simp [hE])]
    rfl
  have htn : next.toNat =
      (st.currentNodeIndex + st.nodePositions.length - 1) % st.nodePositions.length := by
    rw [hnext,
      show ((st.currentNodeIndex : ℤ) - 1 + (st.nodePositions.length : ℤ)) =
        ((st.currentNodeIndex + st.nodePositions.length - 1 : ℕ) : ℤ) by omega,
      ← Int.natCast_mod, Int.toNat_natCast]
  rw [hres, hkey, ← htn]

lemma home_fields (m : JsMath) (st : Ctrl) (e : ℚ)
    (hE : st.enabled = true) (hT : st.isTransitioning = false)
    (hN : 0 < st.nodePositions.length)
    (hdp : 0 < navDuration st) (hde : navDuration st * 1000 ≤ e) :
    (pressKey m e st Key.home).currentNodeIndex = 0 := by
  have hEq : st.nodePositions[(0 : ℤ).toNat]? = some st.nodePositions[(0 : ℤ).toNat] :=
    List.getElem?_eq_getElem (by omega)
  have hkey := navigate_complete_trace m st 0 e st.nodePositions[(0 : ℤ).toNat]
    le_rfl (by exact_mod_cast hN) hT hEq hdp hde
  have hres : pressKey m e st Key.home = (navigateToNode m st 0 [e]).1 := by
    unfold pressKey onKeyDown
    rw [if_neg (by simp [hE])]
  rw [hres, hkey]
  rfl

lemma tab_chain_step (m : JsMath) (e : ℚ) (st : Ctrl) (c : ℕ)
    (hE : st.enabled = true) (hT : st.isTransitioning = false)
    (h5 : st.nodePositions.length = 5)
    (hdp : 0 < navDuration st) (hde : navDuration st * 1000 ≤ e)
    (hc : st.currentNodeIndex = c) :
    (pressKey m e st (Key.tab false)).currentNodeIndex = (c + 1) % 5 ∧
    (pressKey m e st (Key.tab false)).enabled = true ∧
    (pressKey m e st (Key.tab false)).isTransitioning = false ∧
    (pressKey m e st (Key.tab false)).nodePositions.length = 5 ∧
    0 < navDuration (pressKey m e st (Key.tab false)) ∧
    navDuration (pressKey m e st (Key.tab false)) * 1000 ≤ e := by
  have h := tab_next_fields m st e hE hT (by omega) hdp hde
  refine ⟨by rw [h.1, hc, h5], h.2.1, h.2.2.1, by rw [h.2.2.2.1, h5], ?_, ?_⟩
  · unfold navDuration
    rw [h.2.2.2.2]
    exact hdp
  · unfold navDuration
    rw [h.2.2.2.2]
    exact hde

/-- C7: for a controller that is idle at each key press, Tab navigates to
(currentNodeIndex + 1) mod N, Shift+Tab to (currentNodeIndex - 1 + N) mod N,
Home to index 0, and starting at index 0 of 5 nodes, five successive
completed Tab navigations return currentNodeIndex to 0 (wrap-around).  The
frame schedule delivers one frame after the transition duration, so each
navigation completes before the next key press. -/
theorem keyboard_cycling (m : JsMath) (st : Ctrl) (e : ℚ)
    (hE : st.enabled = true) (hT : st.isTransitioning = false)
    (hN : 0 < st.nodePositions.length)
    (hdp : 0 < navDuration st) (hde : navDuration st * 1000 ≤ e) :
    (pressKey m e st (Key.tab false)).currentNodeIndex =
      (st.currentNodeIndex + 1) % st.nodePositions.length ∧
    (pressKey m e st (Key.tab true)).currentNodeIndex =
      (st.currentNodeIndex + st.nodePositions.length - 1) % st.nodePositions.length ∧
    (pressKey m e st Key.home).currentNodeIndex = 0 ∧
    (pressKey m e st (Key.tab false)).isTransitioning = false ∧
    (st.nodePositions.length = 5 → st.currentNodeIndex = 0 →
      ((List.replicate 5 (Key.tab false)).foldl (pressKey m e) st).currentNodeIndex = 0) := by
  have h1 := tab_next_fields m st e hE hT hN hdp hde
  refine ⟨h1.1, tab_prev_fields m st e hE hT hN hdp hde,
    home_fields m st e hE hT hN hdp hde, h1.2.2.1, ?_⟩
  intro h5 h0
  have hfold : (List.replicate 5 (Key.tab false)).foldl (pressKey m e) st =
      pressKey m e (pressKey m e (pressKey m e (pressKey m e (pressKey m e st
        (Key.tab false)) (Key.tab false)) (Key.tab false)) (Key.tab false))
        (Key.tab false) := rfl
  rw [hfold]
  have c1 := tab_chain_step m e st 0 hE hT h5 hdp hde h0
  have c2 := tab_chain_step m e (pressKey m e st (Key.tab false)) 1
    c1.2.1 c1.2.2.1 c1.2.2.2.1 c1.2.2.2.2.1 c1.2.2.2.2.2
    (c1.1.trans (by norm_num))
  have c3 := tab_chain_step m e
    (pressKey m e (pressKey m e st (Key.tab false)) (Key.tab false)) 2
    c2.2.1 c2.2.2.1 c2.2.2.2.1 c2.2.2.2.2.1 c2.2.2.2.2.2
    (c2.1.trans (by norm_num))
  have c4 := tab_chain_step m e
    (pressKey m e (pressKey m e (pressKey m e st (Key.tab false)) (Key.tab false))
      (Key.tab false)) 3
    c3.2.1 c3.2.2.1 c3.2.2.2.1 c3.2.2.2.2.1 c3.2.2.2.2.2
    (c3.1.trans (by norm_num))
  have c5 := tab_chain_step m e
    (pressKey m e (pressKey m e (pressKey m e (pressKey m e st (Key.tab false))
      (Key.tab false)) (Key.tab false)) (Key.tab false)) 4
    c4.2.1 c4.2.2.1 c4.2.2.2.1 c4.2.2.2.2.1 c4.2.2.2.2.2
    (c4.1.trans (by norm_num))
  exact c5.1.trans (by norm_num)

theorem keyboard_cycling_witness :
    (pressKey jsMathTriv 2000 witnessCtrl (Key.tab false)).currentNodeIndex =
      (witnessCtrl.currentNodeIndex + 1) % witnessCtrl.nodePositions.length ∧
    (pressKey jsMathTriv 2000 witnessCtrl (Key.tab true)).currentNodeIndex =
      (witnessCtrl.currentNodeIndex + witnessCtrl.nodePositions.length - 1) %
        witnessCtrl.nodePositions.length ∧
    (pressKey jsMathTriv 2000 witnessCtrl Key.home).currentNodeIndex = 0 ∧
    (pressKey jsMathTriv 2000 witnessCtrl (Key.tab false)).isTransitioning = false ∧
    (witnessCtrl.nodePositions.length = 5 → witnessCtrl.currentNodeIndex = 0 →
      ((List.replicate 5 (Key.tab false)).foldl (pressKey jsMathTriv 2000)
        witnessCtrl).currentNodeIndex = 0) :=
  keyboard_cycling jsMathTriv witnessCtrl 2000 (by decide) (by decide) (by decide)
    (by norm_num [navDuration, witnessCtrl, defaultOptions])
    (by norm_num [navDuration, witnessCtrl, defaultOptions])

/-- The unhover events emitted for a previous hover value. -/
def exitEvs : Option Obj → List Ev
  | some prev => [Ev.unhover prev]
  | none => []

/-- The logical entity a hover resolution yields: the node-root ancestor of
the nearest intersection, or none when nothing is intersected. -/
def resolveHit : List Obj → Option Obj
  | [] => none
  | h :: _ => findNodeGroup h

/-- A node-root object, for concrete counterexamples and witnesses. -/
def objNodeA : Obj := Obj.top 1 true 0

/-- A registered selectable whose ancestor chain has no node root. -/
def objPlain : Obj := Obj.top 2 false 0

/-- An interaction state currently hovering objNodeA. -/
def imWithHover : IM := ⟨some objNodeA, none, true, "grab"⟩

/-- An interaction state hovering nothing. -/
def imNoHover : IM := ⟨none, none, true, "grab"⟩

/-- C8 as stated fails on the code: with a node currently hovered and the
pointer over a registered selectable that has no node-root ancestor, the
resolved entity is none yet checkHover emits a hover event (with entity
none) after the unhover, where the claim allows a hover event only for a
non-none new value. -/
theorem hover_events_counterexample :
    (checkHover imWithHover [objPlain]).2 = [Ev.unhover objNodeA, Ev.hover none] ∧
    Ev.hover none ∈ (checkHover imWithHover [objPlain]).2 := by decide

/-- C8 amended: whenever the resolution differs from the current hover state,
exactly one unhover for the previous value (when non-none) is followed by
exactly one hover event — emitted whenever the intersection list is
non-empty, with the resolved entity possibly none — and the hover state
becomes the resolved value; when the resolution equals the current state,
nothing is emitted and the state is unchanged.  Hover exclusivity holds by
construction: hoveredObject is an Option of a single entity. -/
theorem hover_exit_enter_order (st : IM) (inters : List Obj) :
    (resolveHit inters = st.hoveredObject → checkHover st inters = (st, [])) ∧
    (resolveHit inters ≠ st.hoveredObject →
      (checkHover st inters).2 =
        exitEvs st.hoveredObject ++
          (if inters.isEmpty then [] else [Ev.hover (resolveHit inters)]) ∧
      (checkHover st inters).1.hoveredObject = resolveHit inters) := by
  cases inters with
  | nil =>
      constructor
      · intro h
        have hh : st.hoveredObject = none := by
          rw [← h]
          rfl
        unfold checkHover
        rw [hh]
      · intro h
        have hh : ∃ prev, st.hoveredObject = some prev := by
          cases hp : st.hoveredObject with
          | none =>
              exfalso
              exact h (by rw [hp]; rfl)
          | some prev => exact ⟨prev, rfl⟩
        obtain ⟨prev, hp⟩ := hh
        unfold checkHover
        rw [hp]
        exact ⟨rfl, rfl⟩
  | cons hit rest =>
      constructor
      · intro h
        have h2 : findNodeGroup hit = st.hoveredObject := h
        unfold checkHover
        dsimp only
        rw [if_neg (by simp [h2])]
      · intro h
        have h2 : findNodeGroup hit ≠ st.hoveredObject := h
        unfold checkHover
        dsimp only
        rw [if_pos h2]
        exact ⟨rfl, rfl⟩

theorem hover_exit_enter_order_witness :
    resolveHit [objNodeA] ≠ imNoHover.hoveredObject ∧
    ((checkHover imNoHover [objNodeA]).2 =
        exitEvs imNoHover.hoveredObject ++
          (if ([objNodeA] : List Obj).isEmpty then []
           else [Ev.hover (resolveHit [objNodeA])]) ∧
      (checkHover imNoHover [objNodeA]).1.hoveredObject = resolveHit [objNodeA]) :=
  ⟨by decide, (hover_exit_enter_order imNoHover [objNodeA]).2 (by decide)⟩

/-- C10 as stated fails on the code: when nothing is currently hovered and
the pointer intersects a registered selectable with no node-root ancestor,
checkHover emits no events at all — the null resolution compares equal to the
null hover state — and the cursor is not set to pointer. -/
theorem hover_null_entity_counterexample :
    (checkHover imNoHover [objPlain]).2 = [] ∧
    Ev.hover none ∉ (checkHover imNoHover [objPlain]).2 ∧
    (checkHover imNoHover [objPlain]).1.cursor = "grab" := by decide

/-- C10 amended: when a hover resolution intersects a registered selectable
whose ancestor chain has no node root and some entity is currently hovered,
checkHover emits an unhover for it followed by a hover event whose entity
argument is null and sets the cursor to pointer (so hover listeners can
receive a null entity); when nothing is currently hovered, no events are
emitted. -/
theorem hover_null_entity (st : IM) (hit : Obj) (rest : List Obj)
    (hng : findNodeGroup hit = none) :
    (∀ prev, st.hoveredObject = some prev →
      (checkHover st (hit :: rest)).2 = [Ev.unhover prev, Ev.hover none] ∧
      (checkHover st (hit :: rest)).1.hoveredObject = none ∧
      (checkHover st (hit :: rest)).1.cursor = "pointer") ∧
    (st.hoveredObject = none → checkHover st (hit :: rest) = (st, [])) := by
  constructor
  · intro prev hprev
    unfold checkHover
    dsimp only
    rw [hng, hprev, if_pos (by simp)]
    exact ⟨rfl, rfl, rfl⟩
  · intro hnone
    unfold checkHover
    dsimp only
    rw [hng, hnone, if_neg (by simp)]

theorem hover_null_entity_witness :
    (checkHover imWithHover [objPlain]).2 = [Ev.unhover objNodeA, Ev.hover none] ∧
    (checkHover imWithHover [objPlain]).1.hoveredObject = none ∧
    (checkHover imWithHover [objPlain]).1.cursor = "pointer" :=
  (hover_null_entity imWithHover objPlain [] (by decide)).1 objNodeA (by decide)

/-- A mesh child whose parent chain reaches a node root with index 2. -/
def clickMesh : Obj := Obj.sub 10 false 0 (Obj.top 11 true 2)

/-- The node root reached from clickMesh. -/
def clickNode : Obj := Obj.top 11 true 2

/-- An application state whose camera transition is in flight while
interaction is enabled. -/
def appT : AppState := ⟨transitioningCtrl, ⟨none, none, true, "grab"⟩⟩

/-- C9 as stated fails on the code: InteractionManager.onClick consults only
its own enabled flag, so a click resolving to a node during an active camera
transition still emits click and select events — only the navigation request
triggered by the select listener is rejected. -/
theorem nav_gating_counterexample :
    Ev.selectEv clickNode ∈ (appClick jsMathTriv appT [clickMesh] [1000]).2 ∧
    (appClick jsMathTriv appT [clickMesh] [1000]).1.ctrl = appT.ctrl :=
  ⟨by decide, rfl⟩

/-- C9 amended: keyboard navigation inputs (digits, Tab, Home) are fully
ignored — no state change, no events — while a transition is active or the
controller is disabled; pointer clicks emit nothing while the
InteractionManager is disabled; but while a transition is active with
interaction enabled, a click still emits the InteractionManager click/select
events, and only the resulting navigation is rejected, leaving the
controller state unchanged. -/
theorem nav_input_gating (m : JsMath) (st : Ctrl) (app : AppState) (k : Key)
    (frames : List ℚ) (inters : List Obj) :
    (k.isNavKey = true → st.isTransitioning = true ∨ st.enabled = false →
      onKeyDown m st k frames = (st, [])) ∧
    (app.im.isEnabled = false → appClick m app inters frames = (app, [])) ∧
    (app.ctrl.isTransitioning = true →
      (appClick m app inters frames).1.ctrl = app.ctrl ∧
      (appClick m app inters frames).2 = (imOnClick app.im inters).2) := by
  refine ⟨?_, ?_, ?_⟩
  · intro hk hg
    by_cases hE : st.enabled = true
    · have hT : st.isTransitioning = true := by
        rcases hg with h | h
        · exact h
        · rw [hE] at h
          exact absurd h (by simp)
      unfold onKeyDown
      rw [if_neg (by simp [hE])]
      cases k with
      | digit n =>
          dsimp only
          by_cases h15 : 1 ≤ n ∧ n ≤ 5
          · rw [if_pos h15]
            by_cases hlen : n - 1 < st.nodePositions.length
            · rw [if_pos hlen]
              exact navigateToNode_noop m st ((n : ℤ) - 1) frames
                (Or.inr (Or.inr hT))
            · rw [if_neg hlen]
          · rw [if_neg h15]
      | home =>
          exact navigateToNode_noop m st 0 frames (Or.inr (Or.inr hT))
      | tab shift =>
          dsimp only
          exact navigateToNode_noop m st _ frames (Or.inr (Or.inr hT))
      | arrowLeft => simp [Key.isNavKey] at hk
      | arrowRight => simp [Key.isNavKey] at hk
      | arrowUp => simp [Key.isNavKey] at hk
      | arrowDown => simp [Key.isNavKey] at hk
      | plus => simp [Key.isNavKey] at hk
      | minus => simp [Key.isNavKey] at hk
      | other => simp [Key.isNavKey] at hk
    · unfold onKeyDown
      rw [if_pos (by simp [Bool.not_eq_true] at hE; simp [hE])]
  · intro hDis
    unfold appClick imOnClick
    rw [if_pos (by simp [hDis])]
    rfl
  · intro hT
    have him : (imOnClick app.im inters).2 = [] ∨
        ∃ ng, (imOnClick app.im inters).2 = [Ev.click ng, Ev.selectEv ng] := by
      unfold imOnClick
      split
      · exact Or.inl rfl
      · split
        · split
          · rename_i ng heq
            exact Or.inr ⟨ng, rfl⟩
          · exact Or.inl rfl
        · exact Or.inl rfl
    rcases him with hevs | ⟨ng, hevs⟩
    · unfold appClick
      dsimp only
      rw [hevs]
      exact ⟨rfl, rfl⟩
    · have hfold : List.foldl (appSelectStep m frames) (app.ctrl, [])
          [Ev.click ng, Ev.selectEv ng] = (app.ctrl, []) := by
        show appSelectStep m frames (app.ctrl, []) (Ev.selectEv ng) = (app.ctrl, [])
        unfold appSelectStep
        dsimp only
        rw [navigateToNode_noop m app.ctrl ((ng.nodeIdx : ℤ)) frames
          (Or.inr (Or.inr hT))]
        rfl
      unfold appClick
      dsimp only
      rw [hevs, hfold]
      exact ⟨rfl, rfl⟩

theorem nav_input_gating_witness :
    (Key.home.isNavKey = true →
      transitioningCtrl.isTransitioning = true ∨ transitioningCtrl.enabled = false →
      onKeyDown jsMathTriv transitioningCtrl Key.home [1000] = (transitioningCtrl, [])) ∧
    (appT.im.isEnabled = false →
      appClick jsMathTriv appT [clickMesh] [1000] = (appT, [])) ∧
    (appT.ctrl.isTransitioning = true →
      (appClick jsMathTriv appT [clickMesh] [1000]).1.ctrl = appT.ctrl ∧
      (appClick jsMathTriv appT [clickMesh] [1000]).2 =
        (imOnClick appT.im [clickMesh]).2) :=
  nav_input_gating jsMathTriv transitioningCtrl appT Key.home [1000] [clickMesh]

end Artas
